import Mathlib

/-!
# Verification of the noteplan-plugins aggregation / cache / perspective core

Shallow embedding of the Dashboard aggregator (`dataGeneration.js`), the
Perspective store (`perspectiveHelpers.js`), the project cache
(`reviewListHelpers.js`) and the folder-matching helper (`helpers/folders`)
from the cwhittl/noteplan-plugins repository, together with theorems settling
the frozen claims about this code.

JavaScript strings are modelled by Lean `String`; JS arrays by `List`;
the external `DataStore` state (folder list, notes, preferences, settings
blob) is passed explicitly as parameters; `async` functions that only await
pure lookups are modelled as pure functions of those lookups' results.
-/

namespace NotePlan

/-! ## String primitives (JS `includes` / `startsWith` / `endsWith` / `slice(0,-1)`) -/

/-- Character-list prefix test (first argument is the candidate prefix). -/
def listPre : List Char → List Char → Bool
  | [], _ => true
  | _ :: _, [] => false
  | c :: cs, d :: ds => c = d && listPre cs ds

/-- Substring search on character lists (used to build JS `includes`). -/
def listContainsSub : List Char → List Char → Bool
  | [], sub => sub.isEmpty
  | c :: rest, sub => listPre sub (c :: rest) || listContainsSub rest sub

/-- JS `hay.includes(needle)`: contiguous-substring test. -/
def strContains (hay needle : String) : Bool :=
  listContainsSub hay.data needle.data

/-- JS `s.startsWith(p)`. -/
def strStartsWith (s p : String) : Bool :=
  listPre p.data s.data

/-- JS `s.endsWith(p)`. -/
def strEndsWith (s p : String) : Bool :=
  listPre p.data.reverse s.data.reverse

/-- JS `s.slice(0, -1)`: drop the last character. -/
def strDropLast (s : String) : String :=
  String.mk s.data.dropLast

/-- JS `s.trim()` (whitespace trim, as used on comma-separated settings lists). -/
def strTrim (s : String) : String :=
  String.mk (((s.data.dropWhile Char.isWhitespace).reverse.dropWhile Char.isWhitespace).reverse)

theorem strEndsWith_append_slash (f : String) : strEndsWith (f ++ "/") "/" = true := by
  cases f with
  | mk data =>
    show listPre ['/'].reverse ((data ++ ['/']).reverse) = true
    rw [List.reverse_append]
    simp [listPre]

theorem strEndsWith_slash_elim {t : String} (h : strEndsWith t "/" = true) :
    strDropLast t ++ "/" = t := by
  cases t with
  | mk data =>
    unfold strEndsWith at h
    match hd : data.reverse with
    | [] => rw [hd] at h; simp [listPre] at h
    | c :: rest =>
      rw [hd] at h
      have hc : c = '/' := by
        simp [listPre] at h
        exact h.symm
      have hdata : data = rest.reverse ++ ['/'] := by
        have h2 := congrArg List.reverse hd
        rw [List.reverse_reverse] at h2
        rw [h2, List.reverse_cons, hc]
      show String.mk ((String.mk data).data.dropLast ++ ['/']) = String.mk data
      rw [hdata]
      simp

/-! ## Comma-separated settings lists -/

/-- Modelled from the spec: `stringListOrArrayToArray` lives in
`helpers/dataManipulation.js`, which is not among the provided source files
(only its callers are). Per the spec it turns a comma-separated string into an
array of trimmed entries ("comma-separated folder allow/deny",
"comma-separated, trimmed"), and unlike a naive `split(',')` it yields the
empty array for the empty string (its in-src callers note that they "can't use
simple .split(',') as it does unexpected things with empty strings"). -/
def stringListOrArrayToArray (s : String) : List String :=
  if s = "" then []
  else ((s.splitOn ",").map strTrim).filter (fun x => x ≠ "")

/-! ## `getFoldersMatching` (helpers/folders.js, src/unnamed/part_003 lines 21-83)

The full `DataStore.folders` list is passed explicitly as `fullFolderList`. -/

def getFoldersMatching (fullFolderList : List String) (inclusions : List String)
    (excludeSpecialFolders : Bool) (exclusions : List String) : List String :=
  -- Need some inclusions or exclusions!
  if inclusions.length = 0 ∧ exclusions.length = 0 then []
  else
    let rootIncluded := inclusions.any (fun f => f = "/")
    let rootExcluded := exclusions.any (fun f => f = "/")
    let inclusionsWithoutRoot := inclusions.filter (fun f => f ≠ "/")
    let exclusionsWithoutRoot := exclusions.filter (fun f => f ≠ "/")
    -- Deal with special case of inclusions just '/'
    if inclusions.length = 1 ∧ inclusions.headD "" = "/" then
      (if rootExcluded then [] else ["/"])
    else
      let reducedFolderList :=
        if excludeSpecialFolders then fullFolderList.filter (fun f => ¬ strStartsWith f "@")
        else fullFolderList
      -- To aid partial matching, terminate all folder strings with a trailing /
      let filteredTerminatedWithSlash :=
        reducedFolderList.map (fun f => if strEndsWith f "/" then f else f ++ "/")
      -- Filter out exclusions (if given)
      let afterExclusions :=
        if exclusionsWithoutRoot.length > 0 then
          filteredTerminatedWithSlash.filter
            (fun folder => ¬ exclusionsWithoutRoot.any (fun e => strContains folder e))
        else filteredTerminatedWithSlash
      -- Filter in inclusions (if given)
      let afterInclusions :=
        if inclusionsWithoutRoot.length > 0 then
          afterExclusions.filter
            (fun folder => inclusionsWithoutRoot.any (fun i => strContains folder i))
        else afterExclusions
      -- now remove trailing slash characters
      let outputList :=
        afterInclusions.map (fun folder => if strEndsWith folder "/" then strDropLast folder else folder)
      -- add '/' back in if it was there originally in inclusions AND NOT exclusions
      if rootIncluded ∧ ¬ rootExcluded then "/" :: outputList else outputList

/-! ## Settings maps and Perspective definitions (perspectiveHelpers.js) -/

/-- A JS settings object (the live ConfigMap), modelled as an association list. -/
abbrev SettingsMap := List (String × String)

/-- JS property read `obj[k]` (`none` models `undefined`). -/
def getSetting (s : SettingsMap) (k : String) : Option String :=
  (s.find? (fun kv => kv.1 = k)).map (fun kv => kv.2)

/-- JS property write `obj[k] = v`. -/
def setSetting (k v : String) : SettingsMap → SettingsMap
  | [] => [(k, v)]
  | kv :: rest => if kv.1 = k then (k, v) :: rest else kv :: setSetting k v rest

/-- `TPerspectiveDef` from perspectiveHelpers.js. -/
structure PerspectiveDef where
  name : String
  isModified : Bool
  dashboardSettings : SettingsMap
deriving DecidableEq, Repr

/-- perspectiveHelpers.js lines 203-205. -/
def getPerspectiveNamed (name : String) (perspectiveSettings : List PerspectiveDef) :
    Option PerspectiveDef :=
  perspectiveSettings.find? (fun s => s.name = name)

/-- perspectiveHelpers.js lines 173-195: `none` models the `false` return for a
falsy active-perspective-name (absent or empty) or a missing definition. -/
def getActivePerspectiveDef (dashboardSettings : SettingsMap)
    (perspectiveSettings : List PerspectiveDef) : Option PerspectiveDef :=
  match getSetting dashboardSettings "activePerspectiveName" with
  | none => none
  | some apn => if apn = "" then none else getPerspectiveNamed apn perspectiveSettings

/-- perspectiveHelpers.js lines 239-255. -/
def getAllowedFoldersInCurrentPerspective (fullFolderList : List String)
    (dashboardSettings : SettingsMap) (perspectiveSettings : List PerspectiveDef) :
    List String :=
  if getSetting dashboardSettings "activePerspectiveName" = some "" then []
  else
    match getActivePerspectiveDef dashboardSettings perspectiveSettings with
    | none => []
    | some activeDef =>
      let includedFolderArr :=
        stringListOrArrayToArray ((getSetting activeDef.dashboardSettings "includedFolders").getD "")
      let excludedFolderArr :=
        stringListOrArrayToArray ((getSetting activeDef.dashboardSettings "excludedFolders").getD "")
      getFoldersMatching fullFolderList includedFolderArr true excludedFolderArr

/-! ### Facts about folder matching -/

theorem mem_terminated_endsWith {t : String} {l : List String}
    (h : t ∈ l.map (fun f => if strEndsWith f "/" then f else f ++ "/")) :
    strEndsWith t "/" = true := by
  rcases List.mem_map.mp h with ⟨g, _, hg⟩
  by_cases hgs : strEndsWith g "/" = true
  · rw [if_pos hgs] at hg; rw [← hg]; exact hgs
  · rw [if_neg hgs] at hg; rw [← hg]; exact strEndsWith_append_slash g

theorem activeDef_apn_ne_empty {ds : SettingsMap} {ps : List PerspectiveDef}
    {d : PerspectiveDef} (hd : getActivePerspectiveDef ds ps = some d) :
    getSetting ds "activePerspectiveName" ≠ some "" := by
  intro h
  rw [getActivePerspectiveDef, h] at hd
  simp at hd

theorem no_match_after_exclusion_filter
    {e f : String} {base exWR : List String}
    (heWR : e ∈ exWR)
    (hmatch : strContains (f ++ "/") e = true)
    (X : List String)
    (hX : ∀ t ∈ X, t ∈ (base.map (fun g => if strEndsWith g "/" then g else g ++ "/")).filter
        (fun folder => ¬ exWR.any (fun e => strContains folder e))) :
    f ∉ X.map (fun folder => if strEndsWith folder "/" then strDropLast folder else folder) := by
  intro hmem
  rcases List.mem_map.mp hmem with ⟨t, htX, hft⟩
  have ht := hX t htX
  rw [List.mem_filter] at ht
  have hslash := mem_terminated_endsWith ht.1
  rw [if_pos hslash] at hft
  have ht_eq : t = f ++ "/" := by rw [← hft]; exact (strEndsWith_slash_elim hslash).symm
  have hpred := ht.2
  simp only [decide_eq_true_eq] at hpred
  exact hpred (List.any_eq_true.mpr ⟨e, heWR, by rw [ht_eq]; exact hmatch⟩)

/-- C5 (amended): in `getFoldersMatching` the exclusion list takes precedence
over the inclusion list: a (non-root) folder whose slash-terminated form matches
any non-root exclusion entry is never in the derived folder allow-list, even when
it also matches entries of a non-empty inclusion list. -/
theorem C5_exclusions_take_precedence
    (folders inclusions exclusions : List String) (esf : Bool) (e f : String)
    (he : e ∈ exclusions) (heRoot : e ≠ "/")
    (hmatch : strContains (f ++ "/") e = true)
    (hf : f ≠ "/") :
    f ∉ getFoldersMatching folders inclusions esf exclusions := by
  intro hmem
  have heWR : e ∈ exclusions.filter (fun x => x ≠ "/") := by
    rw [List.mem_filter]
    exact ⟨he, by simp [heRoot]⟩
  have hexLen : 0 < (exclusions.filter (fun x => x ≠ "/")).length :=
    List.length_pos.mpr (List.ne_nil_of_mem heWR)
  have c1 : ¬ (inclusions.length = 0 ∧ exclusions.length = 0) := by
    rintro ⟨-, h2⟩
    rw [List.length_eq_zero] at h2
    rw [h2] at he
    exact List.not_mem_nil e he
  simp only [getFoldersMatching] at hmem
  rw [if_neg c1] at hmem
  by_cases c2 : inclusions.length = 1 ∧ inclusions.headD "" = "/"
  · rw [if_pos c2] at hmem
    split at hmem
    · exact List.not_mem_nil f hmem
    · rw [List.mem_singleton] at hmem
      exact hf hmem
  · rw [if_neg c2] at hmem
    simp only [gt_iff_lt, if_pos hexLen] at hmem
    by_cases c3 : 0 < (inclusions.filter (fun x => x ≠ "/")).length
    · simp only [if_pos c3] at hmem
      split at hmem
      · rcases List.mem_cons.mp hmem with h | h
        · exact hf h
        · exact no_match_after_exclusion_filter heWR hmatch _
            (fun t ht => (List.mem_filter.mp ht).1) h
      · exact no_match_after_exclusion_filter heWR hmatch _
          (fun t ht => (List.mem_filter.mp ht).1) hmem
    · simp only [if_neg c3] at hmem
      split at hmem
      · rcases List.mem_cons.mp hmem with h | h
        · exact hf h
        · exact no_match_after_exclusion_filter heWR hmatch _ (fun t ht => ht) h
      · exact no_match_after_exclusion_filter heWR hmatch _ (fun t ht => ht) hmem

/-- Witness for `C5_exclusions_take_precedence` at a concrete conflicted folder. -/
theorem C5_exclusions_take_precedence_witness :
    "Archive" ∈ ["Archive"] ∧ strContains ("Work/Archive" ++ "/") "Archive" = true ∧
    "Work/Archive" ∉ getFoldersMatching ["Work", "Work/Archive", "Home"] ["Work"] true ["Archive"] :=
  ⟨by decide, by decide,
    C5_exclusions_take_precedence ["Work", "Work/Archive", "Home"] ["Work"] ["Archive"]
      true "Archive" "Work/Archive" (by decide) (by decide) (by decide) (by decide)⟩

/-- C5 counterexample: folder "Work/Archive" matches entry "Work" of the
non-empty include list and entry "Archive" of the non-empty exclude list, yet
the derived allow-list does not contain it (the result is just ["Work"]):
the include list does NOT take priority on conflict. -/
theorem C5_counterexample :
    strContains ("Work/Archive" ++ "/") "Work" = true ∧
    strContains ("Work/Archive" ++ "/") "Archive" = true ∧
    getFoldersMatching ["Work", "Work/Archive", "Home"] ["Work"] true ["Archive"] = ["Work"] ∧
    "Work/Archive" ∉ getFoldersMatching ["Work", "Work/Archive", "Home"] ["Work"] true ["Archive"] := by
  decide

/-- C10: with both the inclusion and the exclusion list empty,
`getFoldersMatching` returns the empty list (not the full folder tree);
consequently a perspective with neither `includedFolders` nor `excludedFolders`
configured derives an empty folder allow-list. -/
theorem C10_empty_lists_give_empty_allowlist
    (folders : List String) (esf : Bool)
    (ds : SettingsMap) (ps : List PerspectiveDef) (d : PerspectiveDef)
    (hd : getActivePerspectiveDef ds ps = some d)
    (hinc : getSetting d.dashboardSettings "includedFolders" = none ∨
      getSetting d.dashboardSettings "includedFolders" = some "")
    (hexc : getSetting d.dashboardSettings "excludedFolders" = none ∨
      getSetting d.dashboardSettings "excludedFolders" = some "") :
    getFoldersMatching folders [] esf [] = [] ∧
    getAllowedFoldersInCurrentPerspective folders ds ps = [] := by
  have hEmpty : ∀ (fl : List String) (b : Bool), getFoldersMatching fl [] b [] = [] := by
    intro fl b
    simp [getFoldersMatching]
  refine ⟨hEmpty folders esf, ?_⟩
  have h1 : stringListOrArrayToArray ((getSetting d.dashboardSettings "includedFolders").getD "") = [] := by
    rcases hinc with h | h <;> rw [h] <;> simp [stringListOrArrayToArray]
  have h2 : stringListOrArrayToArray ((getSetting d.dashboardSettings "excludedFolders").getD "") = [] := by
    rcases hexc with h | h <;> rw [h] <;> simp [stringListOrArrayToArray]
  unfold getAllowedFoldersInCurrentPerspective
  rw [if_neg (activeDef_apn_ne_empty hd), hd]
  simp only [h1, h2]
  exact hEmpty folders true

/-- Witness for `C10_empty_lists_give_empty_allowlist` at a concrete state. -/
theorem C10_witness :
    getFoldersMatching ["A"] [] true [] = [] ∧
    getAllowedFoldersInCurrentPerspective ["A"]
      [("activePerspectiveName", "P")] [⟨"P", false, []⟩] = [] :=
  C10_empty_lists_give_empty_allowlist ["A"] true
    [("activePerspectiveName", "P")] [⟨"P", false, []⟩] ⟨"P", false, []⟩
    (by decide) (Or.inl (by decide)) (Or.inl (by decide))

/-! ## `switchToPerspective` (perspectiveHelpers.js lines 261-290)

The live dashboard settings blob is passed as `dSettings`; `none` models the
`return false` path (neither the requested name nor the default "-" found).
On success the updated dashboard settings, as persisted to `DataStore.settings`,
are returned: the code sets `activePerspectiveName` to the located definition's
name but does not touch any other key of the live settings. -/

def switchToPerspective (name : String) (allDefs : List PerspectiveDef)
    (dSettings : SettingsMap) : Option SettingsMap :=
  match (match getPerspectiveNamed name allDefs with
         | some d => some d
         | none => getPerspectiveNamed "-" allDefs) with
  | none => none
  | some thisDef => some (setSetting "activePerspectiveName" thisDef.name dSettings)

theorem find?_isSome_of_mem {α : Type} {p : α → Bool} {l : List α} {a : α}
    (ha : a ∈ l) (hp : p a = true) : (l.find? p).isSome = true := by
  induction l with
  | nil => cases ha
  | cons b t ih =>
    rcases List.mem_cons.mp ha with h | h
    · subst h
      simp only [List.find?, hp]
      rfl
    · simp only [List.find?]
      cases hb : p b
      · exact ih h
      · rfl

theorem getSetting_setSetting_frame (s : SettingsMap) (k v k2 : String) (h : k2 ≠ k) :
    getSetting (setSetting k v s) k2 = getSetting s k2 := by
  induction s with
  | nil =>
    simp only [setSetting, getSetting, List.find?]
    rw [show (decide (k = k2)) = false by simp [Ne.symm h]]
  | cons kv rest ih =>
    by_cases hk : kv.1 = k
    · rw [setSetting, if_pos hk]
      simp only [getSetting, List.find?]
      rw [show (decide (k = k2)) = false by simp [Ne.symm h],
        show (decide (kv.1 = k2)) = false by rw [hk]; simp [Ne.symm h]]
    · rw [setSetting, if_neg hk]
      simp only [getSetting, List.find?] at ih ⊢
      by_cases hk2 : kv.1 = k2
      · rw [show (decide (kv.1 = k2)) = true by simp [hk2]]
      · rw [show (decide (kv.1 = k2)) = false by simp [hk2]]
        exact ih

/-- C2 (amended): `switchToPerspective(name)` locates the perspective definition
(falling back to the default "-" when the name is not found, and failing only
when neither exists); it sets the active-perspective-name in the live settings
to the located definition's name and persists that -- but it does NOT copy the
definition's settings snapshot into the live ConfigMap: every key other than
`activePerspectiveName` keeps its previous live value. -/
theorem C2_switchTo_sets_name_only
    (name : String) (allDefs : List PerspectiveDef) (dSettings : SettingsMap) :
    (∀ d, getPerspectiveNamed name allDefs = some d →
      switchToPerspective name allDefs dSettings =
        some (setSetting "activePerspectiveName" d.name dSettings)) ∧
    (getPerspectiveNamed name allDefs = none →
      ∀ d, getPerspectiveNamed "-" allDefs = some d →
        switchToPerspective name allDefs dSettings =
          some (setSetting "activePerspectiveName" "-" dSettings)) ∧
    (getPerspectiveNamed name allDefs = none →
      getPerspectiveNamed "-" allDefs = none →
      switchToPerspective name allDefs dSettings = none) ∧
    (∀ s, switchToPerspective name allDefs dSettings = some s →
      ∀ k, k ≠ "activePerspectiveName" → getSetting s k = getSetting dSettings k) := by
  refine ⟨?_, ?_, ?_, ?_⟩
  · intro d hd
    rw [switchToPerspective, hd]
  · intro hnone d hdflt
    have hname : d.name = "-" := by
      have := List.find?_some hdflt
      simpa using this
    rw [switchToPerspective, hnone, hdflt]
    simp [hname]
  · intro hnone hdflt
    rw [switchToPerspective, hnone, hdflt]
  · intro s hs k hk
    rw [switchToPerspective] at hs
    rcases hcase : (match getPerspectiveNamed name allDefs with
         | some d => some d
         | none => getPerspectiveNamed "-" allDefs) with _ | d
    · rw [hcase] at hs; exact absurd hs (by simp)
    · rw [hcase] at hs
      have : s = setSetting "activePerspectiveName" d.name dSettings := by
        simpa using hs.symm
      rw [this]
      exact getSetting_setSetting_frame dSettings "activePerspectiveName" d.name k hk

/-- Witness for `C2_switchTo_sets_name_only`, exercising the found, fallback and
not-found paths on concrete perspective collections. -/
theorem C2_switchTo_witness :
    switchToPerspective "Work"
      [⟨"-", false, []⟩, ⟨"Work", false, [("includedFolders", "Work")]⟩]
      [("activePerspectiveName", "-"), ("includedFolders", "Home")] =
      some (setSetting "activePerspectiveName" "Work"
        [("activePerspectiveName", "-"), ("includedFolders", "Home")]) ∧
    switchToPerspective "Nope" [⟨"-", false, []⟩] [] =
      some (setSetting "activePerspectiveName" "-" []) ∧
    switchToPerspective "Nope" [] [] = none := by
  refine ⟨?_, ?_, ?_⟩
  · exact (C2_switchTo_sets_name_only "Work"
      [⟨"-", false, []⟩, ⟨"Work", false, [("includedFolders", "Work")]⟩]
      [("activePerspectiveName", "-"), ("includedFolders", "Home")]).1
      ⟨"Work", false, [("includedFolders", "Work")]⟩ (by decide)
  · exact (C2_switchTo_sets_name_only "Nope" [⟨"-", false, []⟩] []).2.1
      (by decide) ⟨"-", false, []⟩ (by decide)
  · exact (C2_switchTo_sets_name_only "Nope" [] []).2.2.1 (by decide) (by decide)

/-- C2 counterexample: switching to "Work", whose snapshot sets
`includedFolders` to "Work", leaves the live `includedFolders` at its previous
value "Home" -- the snapshot is not copied into the live ConfigMap, contrary to
the claim. -/
theorem C2_counterexample :
    switchToPerspective "Work"
      [⟨"-", false, []⟩, ⟨"Work", false, [("includedFolders", "Work")]⟩]
      [("activePerspectiveName", "-"), ("includedFolders", "Home")] =
      some [("activePerspectiveName", "Work"), ("includedFolders", "Home")] ∧
    getSetting [("activePerspectiveName", "Work"), ("includedFolders", "Home")]
      "includedFolders" = some "Home" := by
  decide

/-! ## `cleanDashboardSettings` and `addNewPerspective`
(perspectiveHelpers.js lines 352-384 and 389-447) -/

/-- JS regex `/pat\d/.test(hay)`: does `hay` contain `pat` immediately followed
by a decimal digit? (for the `separator\d` / `heading\d` patterns). -/
def listContainsSubDigit (pat : List Char) : List Char → Bool
  | [] => false
  | c :: rest =>
      (listPre pat (c :: rest) &&
        (match (c :: rest).drop pat.length with
         | d :: _ => d.isDigit
         | [] => false)) ||
      listContainsSubDigit pat rest

def strContainsPatDigit (hay pat : String) : Bool :=
  listContainsSubDigit pat.data hay.data

/-- perspectiveHelpers.js lines 372-375: string patterns become
`RegExp('^' + pattern)` (an anywhere-anchored-at-start test, i.e. startsWith);
the literal regexes test anywhere in the key. -/
def shouldRemoveKey (key : String) : Bool :=
  strStartsWith key "lastChange" ||
  strStartsWith key "activePerspectiveName" ||
  strStartsWith key "timeblockMustContainString" ||
  strStartsWith key "updateTagMentionsOnTrigger" ||
  strStartsWith key "defaultFileExtension" ||
  strStartsWith key "doneDatesAvailable" ||
  strStartsWith key "migratedSettingsFromOriginalDashboard" ||
  strStartsWith key "triggerLogging" ||
  strStartsWith key "pluginID" ||
  strContains key "FFlag_" ||
  strContainsPatDigit key "separator" ||
  strContainsPatDigit key "heading" ||
  strContains key "_logLevel" ||
  strContains key "_logTimer" ||
  strContains key "_logFunctionRE"

/-- perspectiveHelpers.js lines 377-383: reduce the settings object by
excluding keys that match any pattern in `patternsToRemove`. -/
def cleanDashboardSettings (settingsIn : SettingsMap) : SettingsMap :=
  settingsIn.filter (fun kv => ¬ shouldRemoveKey kv.1)

/-- perspectiveHelpers.js lines 389-447: `addNewPerspective`, modelled from the
point where the (already trimmed) `name` string has been obtained from the
input dialog (`getInputTrimmed` lives in helpers/userInput.js, which is not
among the provided source files; its user-cancel boolean return makes the
function exit before any of the checks below). `none` models every early
return that creates nothing; on creation the function returns the persisted
pair (extended perspective collection, dashboard settings with the new
perspective set active). -/
def addNewPerspective (name : String) (allDefs : List PerspectiveDef)
    (currentDashboardSettings : SettingsMap) :
    Option (List PerspectiveDef × SettingsMap) :=
  if name = "-" then none
  else if strEndsWith name "*" then none
  else if (allDefs.find? (fun d => d.name = name)).isSome then none
  else
    let newDef : PerspectiveDef :=
      { name := name, isModified := false,
        dashboardSettings := cleanDashboardSettings currentDashboardSettings }
    some (allDefs ++ [newDef],
      setSetting "activePerspectiveName" name currentDashboardSettings)

/-- C7 (amended): `addNewPerspective` creates nothing when the entered name
equals "-", ends with the modification marker "*", or already names an existing
perspective; for every other name -- including, as the code stands, the empty
name, which none of its guards reject -- it appends exactly one new perspective
with `isModified = false` and a snapshot of the current settings stripped of
the transient keys, persists the extended collection, and sets the new
perspective active. -/
theorem C7_addNewPerspective_spec
    (name : String) (allDefs : List PerspectiveDef) (cur : SettingsMap) :
    (name = "-" → addNewPerspective name allDefs cur = none) ∧
    (strEndsWith name "*" = true → addNewPerspective name allDefs cur = none) ∧
    ((∃ d ∈ allDefs, d.name = name) → addNewPerspective name allDefs cur = none) ∧
    (name ≠ "-" → strEndsWith name "*" = false →
      (∀ d ∈ allDefs, d.name ≠ name) →
      addNewPerspective name allDefs cur =
        some (allDefs ++ [⟨name, false, cleanDashboardSettings cur⟩],
          setSetting "activePerspectiveName" name cur) ∧
      ∀ kv ∈ cleanDashboardSettings cur, shouldRemoveKey kv.1 = false) := by
  refine ⟨?_, ?_, ?_, ?_⟩
  · intro h
    rw [addNewPerspective, if_pos h]
  · intro h
    by_cases h1 : name = "-"
    · rw [addNewPerspective, if_pos h1]
    · rw [addNewPerspective, if_neg h1, if_pos h]
  · rintro ⟨d, hd, hname⟩
    have hfind : (allDefs.find? (fun d => d.name = name)).isSome = true :=
      find?_isSome_of_mem hd (by simp [hname])
    by_cases h1 : name = "-"
    · rw [addNewPerspective, if_pos h1]
    · by_cases h2 : strEndsWith name "*" = true
      · rw [addNewPerspective, if_neg h1, if_pos h2]
      · rw [addNewPerspective, if_neg h1, if_neg h2, if_pos hfind]
  · intro h1 h2 h3
    have hfind : (allDefs.find? (fun d => d.name = name)).isSome = false := by
      rw [Bool.eq_false_iff]
      intro hsome
      rcases Option.isSome_iff_exists.mp hsome with ⟨d, hd⟩
      have hmem := List.mem_of_find?_eq_some hd
      have hp := List.find?_some hd
      exact h3 d hmem (by simpa using hp)
    constructor
    · rw [addNewPerspective, if_neg h1, if_neg (by simp [h2]), if_neg (by simp [hfind])]
    · intro kv hkv
      rw [cleanDashboardSettings] at hkv
      have := (List.mem_filter.mp hkv).2
      simpa using this

/-- Witness for `C7_addNewPerspective_spec`: the three rejections and one
successful creation, on concrete collections. -/
theorem C7_addNewPerspective_witness :
    addNewPerspective "-" [⟨"-", false, []⟩] [] = none ∧
    addNewPerspective "Foo*" [⟨"-", false, []⟩] [] = none ∧
    addNewPerspective "Work" [⟨"-", false, []⟩, ⟨"Work", false, []⟩] [] = none ∧
    addNewPerspective "Test" [⟨"-", false, []⟩]
      [("maxItemsToShowInSection", "30"), ("lastChange", "x")] =
      some ([⟨"-", false, []⟩, ⟨"Test", false, [("maxItemsToShowInSection", "30")]⟩],
        [("maxItemsToShowInSection", "30"), ("lastChange", "x"),
          ("activePerspectiveName", "Test")]) := by
  refine ⟨?_, ?_, ?_, ?_⟩
  · exact (C7_addNewPerspective_spec "-" [⟨"-", false, []⟩] []).1 rfl
  · exact (C7_addNewPerspective_spec "Foo*" [⟨"-", false, []⟩] []).2.1 (by decide)
  · exact (C7_addNewPerspective_spec "Work" [⟨"-", false, []⟩, ⟨"Work", false, []⟩] []).2.2.1
      ⟨⟨"Work", false, []⟩, by decide, rfl⟩
  · have h := (C7_addNewPerspective_spec "Test" [⟨"-", false, []⟩]
      [("maxItemsToShowInSection", "30"), ("lastChange", "x")]).2.2.2
      (by decide) (by decide) (by decide)
    rw [h.1]
    decide

/-- C7 counterexample: the empty name passes every guard of
`addNewPerspective`, so a perspective named "" is created, persisted and set
active -- contradicting the claim that an empty name creates nothing. -/
theorem C7_counterexample :
    addNewPerspective "" [⟨"-", false, []⟩, ⟨"Work", false, []⟩]
      [("activePerspectiveName", "-"), ("lastChange", "x")] =
      some ([⟨"-", false, []⟩, ⟨"Work", false, []⟩, ⟨"", false, []⟩],
        [("activePerspectiveName", ""), ("lastChange", "x")]) := by
  decide

/-! ## Project cache (jgclark.Reviews/src/reviewListHelpers.js)

A cached `Project` record. The `Project` class itself is built in
projectClass.js (not among the source files); `getAllProjectsFromList` and
`updateProjectsListAfterChange` treat records opaquely apart from the
`filename`, `title` and `noteType` fields they read, so all other derived
fields are bundled into an opaque `payload`. -/

structure Project where
  filename : String
  title : String
  noteType : String
  payload : Nat
deriving DecidableEq, Repr

/-- reviewListHelpers.js line 48. -/
def maxAgeAllProjectsListInHours : Int := 1

/-- The external state read by `getAllProjectsFromList`:
`DataStore.fileExists(allProjectsListFilename)`, the
`Reviews-lastAllProjectsGenerationTime` preference (epoch ms; `?? 0` applies
when absent), and the parsed contents of the persisted JSON blob. -/
structure AllProjectsCacheState where
  fileExists : Bool
  generatedAtPref : Option Int
  fileRecords : List Project
deriving DecidableEq, Repr

/-- Result of a `getAllProjectsFromList` call: the returned records and how
many times `generateAllProjectsList` (a full regeneration) ran during it. -/
structure GetAllResult where
  projectInstances : List Project
  regenerateCount : Nat
deriving DecidableEq, Repr

/-- reviewListHelpers.js lines 243-280: `getAllProjectsFromList`.
`regeneratedRecords` stands for the result of `generateAllProjectsList()`
(the full corpus scan, which reads external state). -/
def getAllProjectsFromList (nowMs : Int) (st : AllProjectsCacheState)
    (regeneratedRecords : List Project) : GetAllResult :=
  if st.fileExists then
    let reviewListDate : Int := st.generatedAtPref.getD 0
    let fileAge : Int := nowMs - reviewListDate
    -- If this note is more than maxAgeAllProjectsListInHours old, regenerate it
    if fileAge > 1000 * 60 * 60 * maxAgeAllProjectsListInHours then
      { projectInstances := regeneratedRecords, regenerateCount := 1 }
    else
      { projectInstances := st.fileRecords, regenerateCount := 0 }
  else
    { projectInstances := regeneratedRecords, regenerateCount := 1 }

/-- C3: when the persisted envelope exists and its age (now minus the stored
generated-at timestamp) is at most one hour (`maxAgeAllProjectsListInHours`),
the cached records are returned with zero regenerations; when the age exceeds
the threshold, or the envelope is missing, exactly one regeneration runs
synchronously and its result is returned. -/
theorem C3_cache_staleness
    (nowMs : Int) (st : AllProjectsCacheState) (regen : List Project) :
    (st.fileExists = true →
      nowMs - st.generatedAtPref.getD 0 ≤ 1000 * 60 * 60 * maxAgeAllProjectsListInHours →
      getAllProjectsFromList nowMs st regen =
        { projectInstances := st.fileRecords, regenerateCount := 0 }) ∧
    (st.fileExists = true →
      nowMs - st.generatedAtPref.getD 0 > 1000 * 60 * 60 * maxAgeAllProjectsListInHours →
      getAllProjectsFromList nowMs st regen =
        { projectInstances := regen, regenerateCount := 1 }) ∧
    (st.fileExists = false →
      getAllProjectsFromList nowMs st regen =
        { projectInstances := regen, regenerateCount := 1 }) := by
  refine ⟨?_, ?_, ?_⟩
  · intro hex hage
    rw [getAllProjectsFromList, if_pos hex, if_neg (not_lt.mpr hage)]
  · intro hex hage
    rw [getAllProjectsFromList, if_pos hex, if_pos hage]
  · intro hex
    rw [getAllProjectsFromList, if_neg (by simp [hex])]

/-- Witness for `C3_cache_staleness`: the spec's own example -- a cache
generated 2 hours ago triggers exactly one regeneration, one generated
30 minutes ago triggers zero, and a missing envelope triggers one. -/
theorem C3_cache_staleness_witness :
    getAllProjectsFromList 7200000
      { fileExists := true, generatedAtPref := some 0,
        fileRecords := [⟨"a.md", "A", "#project", 0⟩] } [⟨"b.md", "B", "#project", 0⟩] =
      { projectInstances := [⟨"b.md", "B", "#project", 0⟩], regenerateCount := 1 } ∧
    getAllProjectsFromList 1800000
      { fileExists := true, generatedAtPref := some 0,
        fileRecords := [⟨"a.md", "A", "#project", 0⟩] } [⟨"b.md", "B", "#project", 0⟩] =
      { projectInstances := [⟨"a.md", "A", "#project", 0⟩], regenerateCount := 0 } ∧
    getAllProjectsFromList 0
      { fileExists := false, generatedAtPref := none, fileRecords := [] }
      [⟨"b.md", "B", "#project", 0⟩] =
      { projectInstances := [⟨"b.md", "B", "#project", 0⟩], regenerateCount := 1 } := by
  refine ⟨?_, ?_, ?_⟩
  · exact (C3_cache_staleness 7200000
      { fileExists := true, generatedAtPref := some 0,
        fileRecords := [⟨"a.md", "A", "#project", 0⟩] } [⟨"b.md", "B", "#project", 0⟩]).2.1
      rfl (by decide)
  · exact (C3_cache_staleness 1800000
      { fileExists := true, generatedAtPref := some 0,
        fileRecords := [⟨"a.md", "A", "#project", 0⟩] } [⟨"b.md", "B", "#project", 0⟩]).1
      rfl (by decide)
  · exact (C3_cache_staleness 0
      { fileExists := false, generatedAtPref := none, fileRecords := [] }
      [⟨"b.md", "B", "#project", 0⟩]).2.2 rfl

/-- Outcome of `updateProjectsListAfterChange`: `noChange` models the paths
that end without writing (the caught empty-filename throw, or the note lookup
failing); `regenerated` models the fall back to `generateAllProjectsList`;
`wrote l` models `writeAllProjectsList(l)`. -/
inductive UpdateResult where
  | noChange
  | regenerated
  | wrote (allProjects : List Project)
deriving DecidableEq, Repr

/-- reviewListHelpers.js lines 473-526: `updateProjectsListAfterChange`.
`noteLookup` stands for `DataStore.noteByFilename` followed by
`new Project(...)` (projectClass.js, external to src): `some r` is the freshly
computed replacement record, `none` the note-not-found path.
`allProjects` is the cache read by `getAllProjectsFromList`. -/
def updateProjectsListAfterChange (reviewedFilename : String) (simplyDelete : Bool)
    (allProjects : List Project) (noteLookup : Option Project) : UpdateResult :=
  if reviewedFilename = "" then .noChange
  else
    match allProjects.find? (fun project => project.filename = reviewedFilename) with
    | none => .regenerated
    | some _ =>
      -- delete this item from the list
      let remaining := allProjects.filter (fun project => project.filename ≠ reviewedFilename)
      if simplyDelete then .wrote remaining
      else
        match noteLookup with
        | none => .noChange
        | some updatedProject => .wrote (remaining ++ [updatedProject])

theorem find?_append_cons {α : Type} {p : α → Bool} {pre post : List α} {a : α}
    (hpre : ∀ x ∈ pre, p x = false) (ha : p a = true) :
    (pre ++ a :: post).find? p = some a := by
  induction pre with
  | nil => simp only [List.nil_append, List.find?, ha]
  | cons b t ih =>
    simp only [List.cons_append, List.find?]
    rw [hpre b (by simp)]
    exact ih (fun x hx => hpre x (by simp [hx]))

/-- C4: with the target filename present (exactly once) in the cache and
`deleted = false`, the write replaces only that record (every other record is
kept identically, the fresh record is appended in its place) and the cache
length is preserved; with no matching record the operation falls back to a
full regeneration; with `deleted = true` the matching record is removed and
nothing is inserted. -/
theorem C4_updateOne_frame
    (fn : String) (pre post : List Project) (old newB : Project)
    (hfn : fn ≠ "") (hold : old.filename = fn)
    (hpre : ∀ p ∈ pre, p.filename ≠ fn) (hpost : ∀ p ∈ post, p.filename ≠ fn) :
    (updateProjectsListAfterChange fn false (pre ++ old :: post) (some newB) =
        .wrote (pre ++ post ++ [newB]) ∧
      (pre ++ post ++ [newB]).length = (pre ++ old :: post).length) ∧
    (∀ l : List Project, (∀ p ∈ l, p.filename ≠ fn) →
      updateProjectsListAfterChange fn false l (some newB) = .regenerated) ∧
    updateProjectsListAfterChange fn true (pre ++ old :: post) (some newB) =
      .wrote (pre ++ post) := by
  have hfind : (pre ++ old :: post).find? (fun project => project.filename = fn) = some old :=
    find?_append_cons (fun x hx => by simp [hpre x hx]) (by simp [hold])
  have hfilter : (pre ++ old :: post).filter (fun project => project.filename ≠ fn) =
      pre ++ post := by
    rw [List.filter_append, List.filter_cons]
    rw [if_neg (by simp [hold])]
    rw [List.filter_eq_self.mpr (fun p hp => by simp [hpre p hp]),
      List.filter_eq_self.mpr (fun p hp => by simp [hpost p hp])]
  refine ⟨⟨?_, ?_⟩, ?_, ?_⟩
  · rw [updateProjectsListAfterChange, if_neg hfn, hfind]
    simp only [Bool.false_eq_true, if_false, hfilter]
  · simp [List.length_append]
  · intro l hl
    have : l.find? (fun project => project.filename = fn) = none :=
      List.find?_eq_none.mpr (fun p hp => by simp [hl p hp])
    rw [updateProjectsListAfterChange, if_neg hfn, this]
  · rw [updateProjectsListAfterChange, if_neg hfn, hfind]
    simp only [if_true, hfilter]

/-- Witness for `C4_updateOne_frame`: the spec's 3-record example
`updateOne("b.md", false, newB)`, plus the regenerate and delete paths. -/
theorem C4_updateOne_witness :
    updateProjectsListAfterChange "b.md" false
      [⟨"a.md", "A", "#project", 0⟩, ⟨"b.md", "B", "#project", 0⟩, ⟨"c.md", "C", "#project", 0⟩]
      (some ⟨"b.md", "B", "#project", 1⟩) =
      .wrote [⟨"a.md", "A", "#project", 0⟩, ⟨"c.md", "C", "#project", 0⟩,
        ⟨"b.md", "B", "#project", 1⟩] ∧
    updateProjectsListAfterChange "b.md" false [⟨"a.md", "A", "#project", 0⟩]
      (some ⟨"b.md", "B", "#project", 1⟩) = .regenerated ∧
    updateProjectsListAfterChange "b.md" true
      [⟨"a.md", "A", "#project", 0⟩, ⟨"b.md", "B", "#project", 0⟩, ⟨"c.md", "C", "#project", 0⟩]
      (some ⟨"b.md", "B", "#project", 1⟩) =
      .wrote [⟨"a.md", "A", "#project", 0⟩, ⟨"c.md", "C", "#project", 0⟩] := by
  have h := C4_updateOne_frame "b.md" [⟨"a.md", "A", "#project", 0⟩]
    [⟨"c.md", "C", "#project", 0⟩] ⟨"b.md", "B", "#project", 0⟩ ⟨"b.md", "B", "#project", 1⟩
    (by decide) rfl (by decide) (by decide)
  exact ⟨h.1.1, h.2.1 [⟨"a.md", "A", "#project", 0⟩] (by decide), h.2.2⟩

/-! ## Tag section filtering (dataGeneration.js, `getTaggedSectionData`)

A paragraph as seen by the tag builder. The open-status predicates
`isOpenTask` / `isOpen` live in helpers/utils (external to src), so their
results are carried as fields. -/

structure TagPara where
  content : String
  isOpenTask : Bool
  isOpen : Bool
deriving DecidableEq, Repr

/-- The two settings read by the filtering steps of `getTaggedSectionData`. -/
structure TagSectionConfig where
  ignoreChecklistItems : Bool
  ignoreItemsWithTerms : String
deriving DecidableEq, Repr

/-- dataGeneration.js lines 1159-1176: for one note, keep the paragraphs that
contain the section's tag (line 1159), are open and non-empty (lines
1163-1165), and survive the `ignoreItemsWithTerms` check (lines 1169-1175:
keep when the setting is empty/falsy or the content does not contain it). -/
def tagParasKeptFromNote (config : TagSectionConfig) (sectionName : String)
    (paras : List TagPara) : List TagPara :=
  let tagParasFromNote := paras.filter (fun p => strContains p.content sectionName)
  let filteredTagParasFromNote :=
    if config.ignoreChecklistItems then
      tagParasFromNote.filter (fun p => p.isOpenTask && strTrim p.content != "")
    else
      tagParasFromNote.filter (fun p => p.isOpen && strTrim p.content != "")
  filteredTagParasFromNote.filter (fun p =>
    (config.ignoreItemsWithTerms == "") || !(strContains p.content config.ignoreItemsWithTerms))

/-- C6 (amended): the exclusion-terms filter of the tag builder drops every
line containing the configured `ignoreItemsWithTerms` string, with no
exception for the tag currently being processed: a non-empty configured term
removes each matching line from every tag Section, including the Section of
that tag itself. -/
theorem C6_exclusion_terms_drop_unconditionally
    (config : TagSectionConfig) (sectionName : String) (paras : List TagPara) (p : TagPara)
    (hterm : config.ignoreItemsWithTerms ≠ "")
    (hmatch : strContains p.content config.ignoreItemsWithTerms = true) :
    p ∉ tagParasKeptFromNote config sectionName paras := by
  intro hmem
  rw [tagParasKeptFromNote] at hmem
  have hkeep := (List.mem_filter.mp hmem).2
  simp only [Bool.or_eq_true, beq_iff_eq, Bool.not_eq_true'] at hkeep
  rcases hkeep with h | h
  · exact hterm h
  · rw [hmatch] at h
    cases h

/-- Witness for `C6_exclusion_terms_drop_unconditionally` at a concrete line. -/
theorem C6_exclusion_witness :
    (⟨"pay bill #work", true, true⟩ : TagPara) ∉
      tagParasKeptFromNote ⟨false, "#work"⟩ "#home" [⟨"pay bill #work", true, true⟩] :=
  C6_exclusion_terms_drop_unconditionally ⟨false, "#work"⟩ "#home"
    [⟨"pay bill #work", true, true⟩] ⟨"pay bill #work", true, true⟩ (by decide) (by decide)

/-- C6 counterexample: with `ignoreItemsWithTerms = "#home"`, the open line
"do stuff #home" is dropped from the "#home" tag Section itself (no paragraph
survives the filter) -- the code has no tag-excludes-itself exception. -/
theorem C6_counterexample :
    tagParasKeptFromNote ⟨false, "#home"⟩ "#home" [⟨"do stuff #home", true, true⟩] = [] := by
  decide

/-! ## Parent/child linkage in `getTodaySectionData`
(dataGeneration.js lines 204-247) -/

/-- A `TParagraphForDashboard` as consumed by the parent-linkage walk. -/
structure DashboardPara where
  isAChild : Bool
  hasChild : Bool
  indentLevel : Nat
  content : String
deriving DecidableEq, Repr

/-- A `TSectionItem` as produced for a time-period section. -/
structure SectionItem where
  ID : String
  parentID : String
  para : DashboardPara
deriving DecidableEq, Repr

/-- The four mutable `lastIndentNParentID` variables of the walk. -/
structure ParentSlots where
  lastIndent0ParentID : String
  lastIndent1ParentID : String
  lastIndent2ParentID : String
  lastIndent3ParentID : String
deriving DecidableEq, Repr

/-- Lines 204-207: all four slots start as the empty string. -/
def initialParentSlots : ParentSlots := ⟨"", "", "", ""⟩

/-- The slot for indent level `n` (empty for levels above 3). -/
def slotAt (n : Nat) (slots : ParentSlots) : String :=
  match n with
  | 0 => slots.lastIndent0ParentID
  | 1 => slots.lastIndent1ParentID
  | 2 => slots.lastIndent2ParentID
  | 3 => slots.lastIndent3ParentID
  | _ => ""

/-- Lines 213-221: the nested conditional choosing `parentParaID` for a child
item ('' above level 4: "getting silly by this point, so stop"). -/
def parentIDFor (socp : DashboardPara) (slots : ParentSlots) : String :=
  if socp.indentLevel = 1 then slots.lastIndent0ParentID
  else if socp.indentLevel = 2 then slots.lastIndent1ParentID
  else if socp.indentLevel = 3 then slots.lastIndent2ParentID
  else if socp.indentLevel = 4 then slots.lastIndent3ParentID
  else ""

/-- Lines 225-244: an item with children stores its own id into the slot for
its own indent level (levels 0-3 only). -/
def storeSlot (socp : DashboardPara) (thisID : String) (slots : ParentSlots) : ParentSlots :=
  if socp.hasChild then
    match socp.indentLevel with
    | 0 => { slots with lastIndent0ParentID := thisID }
    | 1 => { slots with lastIndent1ParentID := thisID }
    | 2 => { slots with lastIndent2ParentID := thisID }
    | 3 => { slots with lastIndent3ParentID := thisID }
    | _ => slots
  else slots

/-- dashboardHelpers' `getSectionItemObject(thisID, para)`: an item with no
parent assigned yet. -/
def getSectionItemObject (thisID : String) (socp : DashboardPara) : SectionItem :=
  { ID := thisID, parentID := "", para := socp }

/-- Lines 204-247: the linear walk over `sortedOrCombinedParas`, assigning
sequential ids `${sectionNum}-${itemCount}` and one level of parent linkage. -/
def writeTodayItems (sectionNum : String) : Nat → ParentSlots → List DashboardPara →
    List SectionItem
  | _, _, [] => []
  | itemCount, slots, socp :: rest =>
    let thisID := s!"{sectionNum}-{itemCount}"
    let base := getSectionItemObject thisID socp
    let thisSectionItemObject :=
      if socp.isAChild then { base with parentID := parentIDFor socp slots } else base
    thisSectionItemObject ::
      writeTodayItems sectionNum (itemCount + 1) (storeSlot socp thisID slots) rest

/-- C9: walking a section's items in document order with one last-seen-id slot
per indent level 0-3: every item marked as a child receives parentId equal to
the slot for `indentLevel - 1`, every item marked as having children stores
its own id into the slot for its own indent level, and on the sequence
[A(indent0,hasChild), B(indent1,isChild), C(indent1,isChild)] both B and C
receive parentId equal to A's id. -/
theorem C9_parent_linkage :
    (∀ (slots : ParentSlots) (socp : DashboardPara),
      socp.isAChild = true → 1 ≤ socp.indentLevel → socp.indentLevel ≤ 4 →
      parentIDFor socp slots = slotAt (socp.indentLevel - 1) slots) ∧
    (∀ (slots : ParentSlots) (socp : DashboardPara) (thisID : String),
      socp.hasChild = true → socp.indentLevel ≤ 3 →
      slotAt socp.indentLevel (storeSlot socp thisID slots) = thisID) ∧
    ((writeTodayItems "0" 0 initialParentSlots
        [⟨false, true, 0, "A"⟩, ⟨true, false, 1, "B"⟩, ⟨true, false, 1, "C"⟩]).map
        (fun item => (item.ID, item.parentID)) =
      [("0-0", ""), ("0-1", "0-0"), ("0-2", "0-0")]) := by
  refine ⟨?_, ?_, ?_⟩
  · intro slots socp hchild h1 h4
    rcases socp with ⟨c, hc, n, s⟩
    interval_cases n <;> simp [parentIDFor, slotAt]
  · intro slots socp thisID hhas h3
    rcases socp with ⟨c, hc, n, s⟩
    simp only at hhas
    subst hhas
    interval_cases n <;> simp [storeSlot, slotAt]
  · decide

/-- Witness for `C9_parent_linkage`, discharging the indent-level bounds at a
concrete child item (level 2) and a concrete parent item (level 2). -/
theorem C9_parent_linkage_witness :
    parentIDFor ⟨true, false, 2, "x"⟩ ⟨"a", "b", "c", "d"⟩ = "b" ∧
    slotAt 2 (storeSlot ⟨false, true, 2, "y"⟩ "id2" ⟨"a", "b", "c", "d"⟩) = "id2" := by
  have h := C9_parent_linkage
  refine ⟨?_, ?_⟩
  · have h1 := h.1 ⟨"a", "b", "c", "d"⟩ ⟨true, false, 2, "x"⟩ rfl (by decide) (by decide)
    rw [h1]
    rfl
  · exact h.2.1 ⟨"a", "b", "c", "d"⟩ ⟨false, true, 2, "y"⟩ "id2" rfl (by decide)

/-! ## Section shape of the time-period builders (demo-data path, which is the
path fully contained in src; the real-data path obtains the same own/referenced
split from `getOpenItemParasForCurrentTimePeriod` in dashboardHelpers.js,
external to src). -/

structure TSection where
  ID : String
  name : String
  sectionCode : String
  sectionItems : List SectionItem
deriving DecidableEq, Repr

/-- The demo-path item loop `items.push({ ID: thisID, ...item }); itemCount++`
shared by the builders. -/
def assignDemoIDs (sectionNum : String) : Nat → List SectionItem → List SectionItem
  | _, [] => []
  | itemCount, item :: rest =>
    { item with ID := s!"{sectionNum}-{itemCount}" } ::
      assignDemoIDs sectionNum (itemCount + 1) rest

/-- dataGeneration.js lines 158-365: `getTodaySectionData` (structure of the
returned list; demo-data path). One combined Section when
`separateSectionForReferencedNotes` is false, else the own-note Section plus a
second ">Today" Section for the referenced items. -/
def getTodaySectionData (separateSectionForReferencedNotes : Bool)
    (openTodayItems refTodayItems : List SectionItem) : List TSection :=
  let sortedItems :=
    if separateSectionForReferencedNotes then openTodayItems
    else openTodayItems ++ refTodayItems
  let items := assignDemoIDs "0" 0 sortedItems
  let firstSection : TSection :=
    { ID := "0", name := "Today", sectionCode := "DT", sectionItems := items }
  let sections := [firstSection]
  let secondSection : TSection :=
    { ID := "1", name := ">Today", sectionCode := "DT",
      sectionItems := assignDemoIDs "1" sortedItems.length refTodayItems }
  -- If we want this separated from the referenced items, then form a second section
  if separateSectionForReferencedNotes then sections ++ [secondSection]
  else sections

/-- dataGeneration.js lines 518-639: `getTomorrowSectionData`. The body builds
the `sections` array exactly like the other period builders (pushing a second
">Tomorrow" Section when `separateSectionForReferencedNotes` is true), but
line 634 then returns `[section]` -- only the first Section -- so the pushed
referenced Section is discarded. -/
def getTomorrowSectionData (separateSectionForReferencedNotes : Bool)
    (openTomorrowParas refTomorrowParas : List SectionItem) : List TSection :=
  let sortedParas :=
    if separateSectionForReferencedNotes then openTomorrowParas
    else openTomorrowParas ++ refTomorrowParas
  let items := assignDemoIDs "4" 0 sortedParas
  let firstSection : TSection :=
    { ID := "4", name := "Tomorrow", sectionCode := "DO", sectionItems := items }
  let secondSection : TSection :=
    { ID := "5", name := ">Tomorrow", sectionCode := "DO",
      sectionItems := assignDemoIDs "5" sortedParas.length refTomorrowParas }
  let _sections :=
    if separateSectionForReferencedNotes then [firstSection] ++ [secondSection]
    else [firstSection]
  -- line 634: `return [section]` (not `sections`)
  [firstSection]

/-- C8: the today builder does return two Sections when
`separateSectionForReferencedNotes` is true (own-note items, referenced items)
and one Section with both sets concatenated when it is false; but the tomorrow
builder always returns exactly one Section -- it builds and then discards the
second, referenced Section by returning `[section]` -- so the claim fails for
the tomorrow builder (code bug: the construction of `sections` shows the
intent). -/
theorem C8_tomorrow_builder_drops_referenced_section
    (sep : Bool) (openItems refItems : List SectionItem) :
    ((getTodaySectionData true openItems refItems).length = 2 ∧
      (getTodaySectionData false openItems refItems).length = 1 ∧
      (getTodaySectionData false openItems refItems).map TSection.sectionItems =
        [assignDemoIDs "0" 0 (openItems ++ refItems)] ∧
      (getTodaySectionData true openItems refItems).map TSection.sectionItems =
        [assignDemoIDs "0" 0 openItems,
          assignDemoIDs "1" openItems.length refItems]) ∧
    (getTomorrowSectionData sep openItems refItems).length = 1 := by
  refine ⟨⟨?_, ?_, ?_, ?_⟩, ?_⟩
  · simp [getTodaySectionData]
  · simp [getTodaySectionData]
  · simp [getTodaySectionData]
  · simp [getTodaySectionData]
  · cases sep <;> simp [getTomorrowSectionData]

/-! ## The Aggregator: `getSomeSectionsData` (dataGeneration.js lines 115-149) -/

/-- The per-section show/hide flags read by `getSomeSectionsData`
(`tagsToShow` carries the truthiness of the `config.tagsToShow` string). -/
structure DashboardConfigFlags where
  showYesterdaySection : Bool
  showWeekSection : Bool
  showMonthSection : Bool
  showQuarterSection : Bool
  showProjectSection : Bool
  tagsToShow : Bool
  showOverdueSection : Bool
  showPrioritySection : Bool
deriving DecidableEq, Repr

/-- The outputs of the individual SectionBuilders (each reads external
note-store state, so their results are supplied here). `projectSection` is
`none` when `getProjectSectionData` returned null; `tagSections` is the
null-filtered result of `getTaggedSections`. -/
structure SectionBuilderOutputs where
  timeBlock : TSection
  today : List TSection
  yesterday : List TSection
  tomorrow : List TSection
  thisWeek : List TSection
  thisMonth : List TSection
  thisQuarter : List TSection
  projectSection : Option TSection
  tagSections : List TSection
  overdue : TSection
  priority : TSection
deriving DecidableEq, Repr

/-- dataGeneration.js lines 115-149: `getSomeSectionsData`. Its own doc
comment (line 109) reads "NOTE: Always refreshes today and the TAG sections",
yet every push below -- including the 'DT' (today) and 'TAG' ones -- is
guarded by `sectionCodesToGet.includes(...)`. Note also that the source
guards 'DO' (tomorrow) with `config.showWeekSection`. -/
def getSomeSectionsData (sectionCodesToGet : List String)
    (config : DashboardConfigFlags) (b : SectionBuilderOutputs) : List TSection :=
  let sections : List TSection := []
  let sections :=
    if sectionCodesToGet.contains "TB" then sections ++ [b.timeBlock] else sections
  let sections :=
    if sectionCodesToGet.contains "DT" then sections ++ b.today else sections
  let sections :=
    if sectionCodesToGet.contains "DY" && config.showYesterdaySection then
      sections ++ b.yesterday else sections
  let sections :=
    if sectionCodesToGet.contains "DO" && config.showWeekSection then
      sections ++ b.tomorrow else sections
  let sections :=
    if sectionCodesToGet.contains "W" && config.showWeekSection then
      sections ++ b.thisWeek else sections
  let sections :=
    if sectionCodesToGet.contains "M" && config.showMonthSection then
      sections ++ b.thisMonth else sections
  let sections :=
    if sectionCodesToGet.contains "Q" && config.showQuarterSection then
      sections ++ b.thisQuarter else sections
  let sections :=
    if sectionCodesToGet.contains "PROJ" && config.showProjectSection then
      (match b.projectSection with
       | some projectSection => sections ++ [projectSection]
       | none => sections)
    else sections
  let sections :=
    if sectionCodesToGet.contains "TAG" && config.tagsToShow then
      (if b.tagSections.length > 0 then sections ++ b.tagSections else sections)
    else sections
  let sections :=
    if sectionCodesToGet.contains "OVERDUE" && config.showOverdueSection then
      sections ++ [b.overdue] else sections
  let sections :=
    if sectionCodesToGet.contains "PRIORITY" && config.showPrioritySection then
      sections ++ [b.priority] else sections
  sections

/-- C1: a partial-refresh request for just ["OVERDUE"] returns only the
overdue Section: the today ('DT') and tag ('TAG') builders do not run and
contribute nothing, whatever their outputs would have been -- although the
function's own doc comment says it always refreshes today and the TAG
sections. -/
theorem C1_partial_refresh_drops_today_and_tag
    (config : DashboardConfigFlags) (b : SectionBuilderOutputs)
    (hov : config.showOverdueSection = true) :
    getSomeSectionsData ["OVERDUE"] config b = [b.overdue] := by
  simp [getSomeSectionsData, List.contains, hov]

/-- Witness for `C1_partial_refresh_drops_today_and_tag`: with every section
enabled and non-empty today/tag builder outputs, requesting ["OVERDUE"]
returns only the overdue Section. -/
theorem C1_partial_refresh_witness :
    getSomeSectionsData ["OVERDUE"]
      ⟨true, true, true, true, true, true, true, true⟩
      { timeBlock := ⟨"15", "Current time block", "TB", []⟩,
        today := [⟨"0", "Today", "DT", []⟩],
        yesterday := [⟨"2", "Yesterday", "DY", []⟩],
        tomorrow := [⟨"4", "Tomorrow", "DO", []⟩],
        thisWeek := [⟨"6", "This Week", "W", []⟩],
        thisMonth := [⟨"8", "This Month", "M", []⟩],
        thisQuarter := [⟨"10", "This Quarter", "Q", []⟩],
        projectSection := some ⟨"14", "Projects", "PROJ", []⟩,
        tagSections := [⟨"12-0", "#home", "TAG", []⟩],
        overdue := ⟨"13", "Overdue", "OVERDUE", []⟩,
        priority := ⟨"16", "Priority", "PRIORITY", []⟩ } =
      [⟨"13", "Overdue", "OVERDUE", []⟩] :=
  C1_partial_refresh_drops_today_and_tag
    ⟨true, true, true, true, true, true, true, true⟩
    { timeBlock := ⟨"15", "Current time block", "TB", []⟩,
      today := [⟨"0", "Today", "DT", []⟩],
      yesterday := [⟨"2", "Yesterday", "DY", []⟩],
      tomorrow := [⟨"4", "Tomorrow", "DO", []⟩],
      thisWeek := [⟨"6", "This Week", "W", []⟩],
      thisMonth := [⟨"8", "This Month", "M", []⟩],
      thisQuarter := [⟨"10", "This Quarter", "Q", []⟩],
      projectSection := some ⟨"14", "Projects", "PROJ", []⟩,
      tagSections := [⟨"12-0", "#home", "TAG", []⟩],
      overdue := ⟨"13", "Overdue", "OVERDUE", []⟩,
      priority := ⟨"16", "Priority", "PRIORITY", []⟩ } rfl

end NotePlan
